import Mathlib

/-!
Verification of the volume-sync daemon embedded in `start_mlflow.py`
(`class SimpleVolumeSyncDaemon`).

The daemon mirrors a local directory to a remote "volume" store.  We give a
shallow embedding of its operations:

* the remote store is an association list from remote path (a `String`) to
  byte content; an upload conses a new entry, and `lookupStore` returns the
  most recent entry for a path, so the list doubles as an upload log
  (`countTarget` counts how many uploads ever hit a path);
* a local filesystem entry seen by one background pass (`rglob` + `is_file`
  + `stat` + `open/read`) is an `FsEntry`: its relative path, whether
  `is_file()` returned true, the size reported by `stat()`, the bytes
  returned by `open().read()`, and three booleans telling whether the
  fallible operations (`stat`, `open/read`, `files.upload`) succeed or raise
  on this entry during this pass;
* Python `try/except` becomes explicit propagation: helpers that catch
  internally are total functions, and the one operation whose exception
  escapes to the loop-level handler (`file_path.stat()`) is an
  `Except Unit _` result in `passStep`.

Byte content is `List Nat`; remote paths are strings built exactly as the
source builds them (`f"{self.volume_path}/{relative}"`, where `relative` is
a POSIX relative path, i.e. components joined by "/").
-/

namespace SimpleVolumeSyncDaemon

abbrev Bytes := List Nat

/-- The remote volume store: an association list from remote path to content.
An upload prepends; `lookupStore` sees the latest entry, and the full list
records every upload ever performed. -/
abbrev RemoteStore := List (String × Bytes)

def lookupStore (s : RemoteStore) (p : String) : Option Bytes :=
  match s with
  | [] => none
  | (q, c) :: rest => if q = p then some c else lookupStore rest p

/-- Number of uploads that ever targeted remote path `p`. -/
def countTarget (p : String) (s : RemoteStore) : Nat :=
  s.countP (fun e => e.1 = p)

/-- One filesystem entry yielded by `self.local_path.rglob('*')` during a
pass, together with the outcomes of the fallible operations on it. -/
structure FsEntry where
  relPath : List String
  isFile : Bool
  size : Nat
  content : Bytes
  statOk : Bool
  readOk : Bool
  uploadOk : Bool
deriving Repr, DecidableEq

/-- The size threshold `10 * 1024 * 1024` in `sync_loop`
(`file_path.stat().st_size < 10 * 1024 * 1024`). -/
def sizeLimit : Nat := 10 * 1024 * 1024

/-- Model of `f"{self.volume_path}/{relative}"`: the remote path an upload targets.
`relative` is a relative `Path`, whose string form is its components joined
by "/". -/
def remoteTarget (volumeRoot : String) (rel : List String) : String :=
  volumeRoot ++ "/" ++ String.intercalate "/" rel

/-- Model of `_upload_file(local_path, volume_path)`: reads the file and uploads it;
both steps sit inside `try/except Exception`, so a raise from either leaves
the store unchanged and the method returns normally.  The store is written
exactly when the read and the upload both succeed. -/
def upload_file (e : FsEntry) (target : String) (s : RemoteStore) : RemoteStore :=
  if e.readOk && e.uploadOk then (target, e.content) :: s else s

/-- The body of the `for file_path in self.local_path.rglob('*')` loop for a
single entry: skip non-files, `stat()` may raise (escapes to the loop-level
handler, hence `Except`), and files of size `< sizeLimit` go through
`_upload_file`. -/
def passStep (volumeRoot : String) (e : FsEntry) (s : RemoteStore) :
    Except Unit RemoteStore :=
  if e.isFile then
    if e.statOk then
      if e.size < sizeLimit then
        .ok (upload_file e (remoteTarget volumeRoot e.relPath) s)
      else
        .ok s
    else
      .error ()
  else
    .ok s

/-- The whole `for` loop of one pass over the listed entries.  Returns the
resulting store and `true` when the walk completed; an escaping exception
(`passStep` error) aborts the walk at that entry, leaving the remaining
entries unprocessed, and returns `false`. -/
def runFiles (volumeRoot : String) : List FsEntry → RemoteStore → RemoteStore × Bool
  | [], s => (s, true)
  | e :: rest, s =>
    match passStep volumeRoot e s with
    | .ok s' => runFiles volumeRoot rest s'
    | .error _ => (s, false)

/-- One iteration body of `sync_loop` up to the sleep: the upload walk runs
only when the databricks SDK imported (`if DATABRICKS_SDK_AVAILABLE:`). -/
def runPass (sdk : Bool) (volumeRoot : String) (files : List FsEntry)
    (s : RemoteStore) : RemoteStore × Bool :=
  if sdk then runFiles volumeRoot files s else (s, true)

/-- One full iteration of `sync_loop`: the `try` wraps the walk and the
5-second sleep; the `except` answers an escaped exception with a 10-second
sleep.  Returns the new store and the seconds slept. -/
def loopIter (sdk : Bool) (volumeRoot : String) (files : List FsEntry)
    (s : RemoteStore) : RemoteStore × Nat :=
  match runPass sdk volumeRoot files s with
  | (s', true) => (s', 5)
  | (s', false) => (s', 10)

/-- Model of `sync_loop`: `while self.running:` rechecks the flag before each
iteration.  `running i` is the value of `self.running` read at the top of
iteration `i`, and `inputs i` the filesystem listing that iteration sees;
`fuel` bounds the observation window.  Returns the final store, the number
of iterations executed, and the list of sleeps performed. -/
def sync_loop (sdk : Bool) (volumeRoot : String) (running : Nat → Bool)
    (inputs : Nat → List FsEntry) : Nat → Nat → RemoteStore →
    RemoteStore × Nat × List Nat
  | 0, _, s => (s, 0, [])
  | fuel + 1, i, s =>
    if running i then
      let r := loopIter sdk volumeRoot (inputs i) s
      let rest := sync_loop sdk volumeRoot running inputs fuel (i + 1) r.1
      (rest.1, rest.2.1 + 1, r.2 :: rest.2.2)
    else
      (s, 0, [])

/-- The number of iterations the loop performs within `fuel`, a function of
the running flag alone. -/
def passCount (running : Nat → Bool) : Nat → Nat → Nat
  | 0, _ => 0
  | fuel + 1, i => if running i then passCount running fuel (i + 1) + 1 else 0

/-- Whether processing entry `g` writes the remote path `p`: it must be a
file below the size threshold whose read and upload succeed, targeting `p`. -/
def writesTo (vol p : String) (g : FsEntry) : Bool :=
  g.isFile && decide (g.size < sizeLimit) && g.readOk && g.uploadOk &&
    decide (remoteTarget vol g.relPath = p)

/-- The store effect of one loop-body iteration on an entry, ignoring the
`stat` outcome (used to characterize a pass in which no `stat` raises). -/
def uploadStep (vol : String) (s : RemoteStore) (g : FsEntry) : RemoteStore :=
  if g.isFile && decide (g.size < sizeLimit) then
    upload_file g (remoteTarget vol g.relPath) s
  else s

/-- The cumulative store effect of a pass in which no `stat` raises. -/
def uploadAll (vol : String) (files : List FsEntry) (s : RemoteStore) :
    RemoteStore :=
  files.foldl (uploadStep vol) s

/-! Daemon control state: `__init__`, `start`, `stop`. -/

/-- The daemon's own state: constructor arguments, the running flag and the
background-thread handle.  `spawned` counts how many threads were ever
started (each `threading.Thread(...)` created by `start` is a fresh one),
so "exactly one active background loop" is observable. -/
structure Daemon where
  local_path : List String
  volume_path : String
  running : Bool
  sync_thread : Option Nat
  spawned : Nat
deriving Repr, DecidableEq

/-- Model of `start()`: `if self.running: return`, else set the flag, create and
start a new background thread, and return. -/
def start (d : Daemon) : Daemon :=
  if d.running then d
  else { d with running := true, sync_thread := some d.spawned,
                spawned := d.spawned + 1 }

/-- The timeout (in seconds) passed to `self.sync_thread.join(timeout=2)`
by `stop()`; the join returns after at most this long whether or not the
thread finished. -/
def joinTimeout : Nat := 2

/-- Model of `stop()`: sets `self.running = False`, then joins the thread with
`joinTimeout`.  The join does not change any modeled state, and `stop` is a
total function: it returns whether or not the thread has finished. -/
def stop (d : Daemon) : Daemon := { d with running := false }

/-- Local directories existing on disk, as a list of absolute paths given by
their components. -/
abbrev DirSet := List (List String)

/-- Errors `pathlib.Path.mkdir` can raise. -/
inductive FsError where
  | fileExists
  | noParent
  | hardFault
deriving Repr, DecidableEq

/-- All the directories `mkdir(parents=True)` creates for `p`: every
non-empty prefix of `p`. -/
def mkdirParents (p : List String) (dirs : DirSet) : DirSet :=
  (List.range p.length).map (fun k => p.take (k + 1)) ++ dirs

/-- Model of `Path.mkdir(parents, exist_ok)`: a hard filesystem fault always
raises; an existing directory raises `FileExistsError` unless `exist_ok`;
a missing parent raises unless `parents`; otherwise the directory (and,
with `parents`, its ancestors) is created. -/
def mkdir (parents exist_ok : Bool) (hardFault : Bool) (dirs : DirSet)
    (p : List String) : Except FsError DirSet :=
  if hardFault then .error .hardFault
  else if p ∈ dirs then
    if exist_ok then .ok dirs else .error .fileExists
  else if parents ∨ p.dropLast ∈ dirs ∨ p.dropLast = [] then
    .ok (mkdirParents p dirs)
  else .error .noParent

/-- Model of `__init__(local_path, volume_path)`: records the paths, initializes the
run state (`running = False`, no thread), and runs
`self.local_path.mkdir(parents=True, exist_ok=True)` with no surrounding
`try/except` — a raise from `mkdir` propagates out of construction. -/
def init (local_path : List String) (volume_path : String) (hardFault : Bool)
    (dirs : DirSet) : Except FsError (Daemon × DirSet) :=
  match mkdir true true hardFault dirs local_path with
  | .ok dirs' =>
    .ok ({ local_path := local_path, volume_path := volume_path,
           running := false, sync_thread := none, spawned := 0 }, dirs')
  | .error e => .error e

/-! The initial pull: `sync_from_volume`, `_sync_directory`,
`_download_file`.

The remote tree is an inductive: a remote entry is a file whose download
either yields bytes or raises (`Option Bytes`), or a directory whose
listing either yields entries or raises (`Option (List REntry)`).  The
local filesystem is a record of written files (association list, latest
write first) and existing directories.  `writeOk` tells, per local path,
whether the `open(local_path, 'wb')` write succeeds or raises. -/

/-- A remote directory entry as reported by `list_directory_contents`,
together with the outcome of the fallible operation on it. -/
inductive REntry where
  | file (name : String) (content : Option Bytes)
  | dir (name : String) (listing : Option (List REntry))
deriving Repr

/-- The local filesystem under the daemon's local root: files written
(latest first) and directories present. -/
structure LFS where
  files : List (List String × Bytes)
  dirs : DirSet
deriving Repr, DecidableEq

def lookupFile (fs : LFS) (p : List String) : Option Bytes :=
  match fs.files.find? (fun e => e.1 = p) with
  | some e => some e.2
  | none => none

/-- Model of `local_item_path.mkdir(parents=True, exist_ok=True)` locally:
never raises in this model (only hard faults would, cf. `mkdir`). -/
def mkdirLocal (p : List String) (fs : LFS) : LFS :=
  { fs with dirs := mkdirParents p fs.dirs }

/-- Model of `_download_file(volume_path, local_path)`: download, create the parent
directory, write — all inside `try/except Exception`.  A failed download
leaves the filesystem untouched; a failed write still leaves the parent
directory created. -/
def download_file (writeOk : List String → Bool) (content : Option Bytes)
    (p : List String) (fs : LFS) : LFS :=
  match content with
  | none => fs
  | some c =>
    let fs1 := mkdirLocal p.dropLast fs
    if writeOk p then { fs1 with files := (p, c) :: fs1.files } else fs1

/-- The body of `_sync_directory` once the listing succeeded: for each
entry, a DIRECTORY gets its local directory created and is recursed into
(a listing failure there is caught by the recursive call's own
`try/except`, so only that subtree is dropped), and a FILE goes through
`_download_file`.  `d` is the local directory relative to the local root. -/
def sync_directory (writeOk : List String → Bool) :
    List REntry → List String → LFS → LFS
  | [], _, fs => fs
  | REntry.file name c :: rest, d, fs =>
    sync_directory writeOk rest d (download_file writeOk c (d ++ [name]) fs)
  | REntry.dir name none :: rest, d, fs =>
    sync_directory writeOk rest d (mkdirLocal (d ++ [name]) fs)
  | REntry.dir name (some sub) :: rest, d, fs =>
    sync_directory writeOk rest d
      (sync_directory writeOk sub (d ++ [name]) (mkdirLocal (d ++ [name]) fs))

/-- The effect of the `_sync_directory` loop body on one entry (factored
out of `sync_directory` for reasoning). -/
def sync_entry (writeOk : List String → Bool) (e : REntry) (d : List String)
    (fs : LFS) : LFS :=
  match e with
  | REntry.file name c => download_file writeOk c (d ++ [name]) fs
  | REntry.dir name none => mkdirLocal (d ++ [name]) fs
  | REntry.dir name (some sub) =>
    sync_directory writeOk sub (d ++ [name]) (mkdirLocal (d ++ [name]) fs)

/-- Model of `_sync_directory(volume_dir, local_dir)` on a directory whose
listing may fail: `list_directory_contents` raising is caught by this
call's own `try/except`, dropping the whole subtree. -/
def sync_directory_l (writeOk : List String → Bool)
    (listing : Option (List REntry)) (d : List String) (fs : LFS) : LFS :=
  match listing with
  | none => fs
  | some es => sync_directory writeOk es d fs

/-- Model of `sync_from_volume()`: returns immediately when the SDK is missing;
otherwise runs `create_directory(volume_path)` and then the recursive walk
inside ONE `try/except`, so a raise from `create_directory` jumps to the
`except` and the walk never runs.  `rootListing` is the outcome of listing
the remote root. -/
def sync_from_volume (sdk : Bool) (createDirOk : Bool)
    (writeOk : List String → Bool) (rootListing : Option (List REntry))
    (fs : LFS) : LFS :=
  if sdk then
    if createDirOk then sync_directory_l writeOk rootListing [] fs
    else fs
  else fs

/-! ## Lemmas about the remote store -/

theorem lookupStore_cons (q p : String) (c : Bytes) (s : RemoteStore) :
    lookupStore ((q, c) :: s) p = if q = p then some c else lookupStore s p := rfl

theorem countTarget_cons (p q : String) (c : Bytes) (s : RemoteStore) :
    countTarget p ((q, c) :: s) =
      countTarget p s + (if q = p then 1 else 0) := by
  simp [countTarget, List.countP_cons]

/-! ## Lemmas about one background pass -/

theorem uploadAll_nil (vol : String) (s : RemoteStore) :
    uploadAll vol [] s = s := rfl

theorem uploadAll_cons (vol : String) (g : FsEntry) (rest : List FsEntry)
    (s : RemoteStore) :
    uploadAll vol (g :: rest) s = uploadAll vol rest (uploadStep vol s g) := rfl

theorem uploadAll_append (vol : String) (xs ys : List FsEntry)
    (s : RemoteStore) :
    uploadAll vol (xs ++ ys) s = uploadAll vol ys (uploadAll vol xs s) := by
  simp [uploadAll, List.foldl_append]

/-- When no `stat` raises during a pass, the walk completes and the store is
exactly `uploadAll`. -/
theorem runFiles_eq_uploadAll (vol : String) (files : List FsEntry)
    (s : RemoteStore)
    (hok : ∀ g ∈ files, g.isFile = true → g.statOk = true) :
    runFiles vol files s = (uploadAll vol files s, true) := by
  induction files generalizing s with
  | nil => rfl
  | cons e rest ih =>
    have he : e.isFile = true → e.statOk = true := hok e (by simp)
    have hrest : ∀ g ∈ rest, g.isFile = true → g.statOk = true :=
      fun g hg => hok g (by simp [hg])
    rw [uploadAll_cons]
    cases hf : e.isFile with
    | false =>
      simp only [runFiles, passStep, hf, Bool.false_eq_true, if_false]
      rw [ih _ hrest]
      simp [uploadStep, hf]
    | true =>
      have hs := he hf
      by_cases hsz : e.size < sizeLimit
      · simp only [runFiles, passStep, hf, hs, if_true, hsz]
        rw [ih _ hrest]
        simp [uploadStep, hf, hsz]
      · simp only [runFiles, passStep, hf, hs, if_true, hsz, if_false]
        rw [ih _ hrest]
        simp [uploadStep, hf, hsz]

theorem uploadStep_not_writes (vol p : String) (s : RemoteStore) (g : FsEntry)
    (h : writesTo vol p g = false) :
    lookupStore (uploadStep vol s g) p = lookupStore s p ∧
      countTarget p (uploadStep vol s g) = countTarget p s := by
  unfold uploadStep upload_file
  by_cases h1 : (g.isFile && decide (g.size < sizeLimit)) = true
  · simp only [h1, if_true]
    by_cases h2 : (g.readOk && g.uploadOk) = true
    · have hne : remoteTarget vol g.relPath ≠ p := by
        intro hEq
        simp [writesTo, hEq] at h
        simp only [Bool.and_eq_true] at h1 h2
        simp [h1.1, h1.2, h2.1, h2.2] at h
        have h6 := of_decide_eq_true h1.2
        omega
      simp [h2, lookupStore_cons, countTarget_cons, hne]
    · simp [h2]
  · simp [h1]

theorem uploadAll_not_writes (vol p : String) (files : List FsEntry)
    (s : RemoteStore) (h : ∀ g ∈ files, writesTo vol p g = false) :
    lookupStore (uploadAll vol files s) p = lookupStore s p ∧
      countTarget p (uploadAll vol files s) = countTarget p s := by
  induction files generalizing s with
  | nil => exact ⟨rfl, rfl⟩
  | cons g rest ih =>
    rw [uploadAll_cons]
    have hstep := uploadStep_not_writes vol p s g (h g (by simp))
    have := ih (uploadStep vol s g) (fun g' hg' => h g' (by simp [hg']))
    exact ⟨this.1.trans hstep.1, this.2.trans hstep.2⟩

/-- A pass in which `g` writes `p` and no later entry writes `p` again
leaves `g.content` at `p` and bumps the upload count for `p` by one
(relative to the count after the earlier entries). -/
theorem uploadAll_writes (vol p : String) (xs ys : List FsEntry) (f : FsEntry)
    (s : RemoteStore) (hf : writesTo vol p f = true)
    (hys : ∀ g ∈ ys, writesTo vol p g = false) :
    lookupStore (uploadAll vol (xs ++ f :: ys) s) p = some f.content ∧
      countTarget p (uploadAll vol (xs ++ f :: ys) s) =
        countTarget p (uploadAll vol xs s) + 1 := by
  rw [uploadAll_append]
  rw [uploadAll_cons]
  simp only [writesTo, Bool.and_eq_true, decide_eq_true_eq] at hf
  obtain ⟨⟨⟨⟨h1, h2⟩, h3⟩, h4⟩, h5⟩ := hf
  have hstep : uploadStep vol (uploadAll vol xs s) f =
      (p, f.content) :: uploadAll vol xs s := by
    simp [uploadStep, upload_file, h1, h2, h3, h4, h5]
  rw [hstep]
  have := uploadAll_not_writes vol p ys ((p, f.content) :: uploadAll vol xs s) hys
  refine ⟨this.1.trans ?_, this.2.trans ?_⟩
  · simp [lookupStore_cons]
  · simp [countTarget_cons]

theorem writesTo_false_of_target_ne (vol p : String) (g : FsEntry)
    (h : remoteTarget vol g.relPath ≠ p) : writesTo vol p g = false := by
  simp [writesTo, h]

/-- Count preservation through an arbitrary pass (aborts allowed): if no
listed entry writes `p`, the upload count at `p` is untouched. -/
theorem runFiles_count_invariant (vol p : String) (files : List FsEntry)
    (s : RemoteStore) (h : ∀ g ∈ files, writesTo vol p g = false) :
    countTarget p (runFiles vol files s).1 = countTarget p s := by
  induction files generalizing s with
  | nil => rfl
  | cons e rest ih =>
    have he := h e (by simp)
    have hrest : ∀ g ∈ rest, writesTo vol p g = false :=
      fun g hg => h g (by simp [hg])
    unfold runFiles passStep
    by_cases h1 : e.isFile = true
    · by_cases h2 : e.statOk = true
      · by_cases h3 : e.size < sizeLimit
        · simp only [h1, h2, h3, if_true]
          rw [ih _ hrest]
          have := uploadStep_not_writes vol p s e he
          simpa [uploadStep, h1, h3] using this.2
        · simp only [h1, h2, if_true, h3, if_false]
          exact ih _ hrest
      · simp [h1, h2]
    · simp only [h1, if_false]
      exact ih _ hrest

theorem loopIter_fst (sdk : Bool) (vol : String) (files : List FsEntry)
    (s : RemoteStore) :
    (loopIter sdk vol files s).1 = (runPass sdk vol files s).1 := by
  unfold loopIter
  rcases h : runPass sdk vol files s with ⟨s', b⟩
  cases b <;> simp

/-- Distinct filesystem paths have distinct remote targets (path components
contain no separator), so a pass's target list is `Nodup`; this extracts
what that gives about one file's target. -/
theorem targets_ne_of_nodup (vol : String) (xs ys : List FsEntry) (f : FsEntry)
    (h : ((xs ++ f :: ys).map (fun g => remoteTarget vol g.relPath)).Nodup) :
    (∀ g ∈ xs, remoteTarget vol g.relPath ≠ remoteTarget vol f.relPath) ∧
      (∀ g ∈ ys, remoteTarget vol g.relPath ≠ remoteTarget vol f.relPath) := by
  simp only [List.map_append, List.map_cons] at h
  rw [List.nodup_append] at h
  obtain ⟨h1, h2, hdisj⟩ := h
  rw [List.nodup_cons] at h2
  constructor
  · intro g hg hEq
    exact hdisj (List.mem_map_of_mem _ hg) (by simp [hEq])
  · intro g hg hEq
    exact h2.1 (hEq ▸ List.mem_map_of_mem _ hg)

theorem writesTo_self (vol : String) (f : FsEntry) (hfile : f.isFile = true)
    (hsize : f.size < sizeLimit) (hread : f.readOk = true)
    (hup : f.uploadOk = true) :
    writesTo vol (remoteTarget vol f.relPath) f = true := by
  simp [writesTo, hfile, hsize, hread, hup]

/-- C1: for every regular file `f` listed at the start of a background pass
whose stat size is strictly below 10 MiB, if the pass completes without any
operation raising, the remote store afterwards holds `f`'s read content at
`volume_path ++ "/" ++ relative_path f`.  Distinct files give distinct
remote targets (`hdistinct`), as on a real filesystem. -/
theorem c1_mapping_invariant (vol : String) (files : List FsEntry)
    (s : RemoteStore) (f : FsEntry) (hmem : f ∈ files)
    (hfile : f.isFile = true) (hsize : f.size < sizeLimit)
    (hok : ∀ g ∈ files, g.isFile = true →
      g.statOk = true ∧ g.readOk = true ∧ g.uploadOk = true)
    (hdistinct : (files.map (fun g => remoteTarget vol g.relPath)).Nodup) :
    (runPass true vol files s).2 = true ∧
      lookupStore (runPass true vol files s).1 (remoteTarget vol f.relPath)
        = some f.content := by
  have hstat : ∀ g ∈ files, g.isFile = true → g.statOk = true :=
    fun g hg hf => (hok g hg hf).1
  have hrun : runPass true vol files s = (uploadAll vol files s, true) := by
    simpa [runPass] using runFiles_eq_uploadAll vol files s hstat
  obtain ⟨xs, ys, hsplit⟩ := List.append_of_mem hmem
  have hokf := hok f hmem hfile
  have hw := writesTo_self vol f hfile hsize hokf.2.1 hokf.2.2
  subst hsplit
  have htne := targets_ne_of_nodup vol xs ys f hdistinct
  have hys : ∀ g ∈ ys, writesTo vol (remoteTarget vol f.relPath) g = false :=
    fun g hg => writesTo_false_of_target_ne _ _ _ (htne.2 g hg)
  have hmain := uploadAll_writes vol (remoteTarget vol f.relPath) xs ys f s hw hys
  rw [hrun]
  exact ⟨rfl, hmain.1⟩

theorem c1_witness :
    (runPass true "/v"
      [⟨["notes.txt"], true, 5, [1, 2, 3, 4, 5], true, true, true⟩,
       ⟨["big.bin"], true, 11 * 1024 * 1024, [9], true, true, true⟩] []).2
        = true ∧
    lookupStore (runPass true "/v"
      [⟨["notes.txt"], true, 5, [1, 2, 3, 4, 5], true, true, true⟩,
       ⟨["big.bin"], true, 11 * 1024 * 1024, [9], true, true, true⟩] []).1
      (remoteTarget "/v" ["notes.txt"]) = some [1, 2, 3, 4, 5] := by
  exact c1_mapping_invariant "/v"
    [⟨["notes.txt"], true, 5, [1, 2, 3, 4, 5], true, true, true⟩,
     ⟨["big.bin"], true, 11 * 1024 * 1024, [9], true, true, true⟩] []
    ⟨["notes.txt"], true, 5, [1, 2, 3, 4, 5], true, true, true⟩
    (by decide) rfl (by decide) (by decide) (by decide)

/-- C8: in a pass that completes without any operation raising, every
regular file below the threshold is uploaded to its remote target whatever
the store held there before (unconditional overwrite, for every initial
store), and the upload count at that target grows by exactly one — the file
is re-uploaded even when the store already holds identical content. -/
theorem c8_unconditional_overwrite (vol : String) (files : List FsEntry)
    (f : FsEntry) (hmem : f ∈ files) (hfile : f.isFile = true)
    (hsize : f.size < sizeLimit)
    (hok : ∀ g ∈ files, g.isFile = true →
      g.statOk = true ∧ g.readOk = true ∧ g.uploadOk = true)
    (hdistinct : (files.map (fun g => remoteTarget vol g.relPath)).Nodup) :
    ∀ s : RemoteStore,
      lookupStore (runPass true vol files s).1 (remoteTarget vol f.relPath)
          = some f.content ∧
        countTarget (remoteTarget vol f.relPath) (runPass true vol files s).1
          = countTarget (remoteTarget vol f.relPath) s + 1 := by
  intro s
  have hstat : ∀ g ∈ files, g.isFile = true → g.statOk = true :=
    fun g hg hf => (hok g hg hf).1
  have hrun : runPass true vol files s = (uploadAll vol files s, true) := by
    simpa [runPass] using runFiles_eq_uploadAll vol files s hstat
  obtain ⟨xs, ys, hsplit⟩ := List.append_of_mem hmem
  have hokf := hok f hmem hfile
  have hw := writesTo_self vol f hfile hsize hokf.2.1 hokf.2.2
  subst hsplit
  have htne := targets_ne_of_nodup vol xs ys f hdistinct
  have hys : ∀ g ∈ ys, writesTo vol (remoteTarget vol f.relPath) g = false :=
    fun g hg => writesTo_false_of_target_ne _ _ _ (htne.2 g hg)
  have hxs : ∀ g ∈ xs, writesTo vol (remoteTarget vol f.relPath) g = false :=
    fun g hg => writesTo_false_of_target_ne _ _ _ (htne.1 g hg)
  have hmain := uploadAll_writes vol (remoteTarget vol f.relPath) xs ys f s hw hys
  have hpre := uploadAll_not_writes vol (remoteTarget vol f.relPath) xs s hxs
  rw [hrun]
  exact ⟨hmain.1, hmain.2.trans (by rw [hpre.2])⟩

theorem c8_witness :
    lookupStore (runPass true "/v" [⟨["a.txt"], true, 1, [7], true, true, true⟩]
        [("/v/a.txt", [7])]).1 (remoteTarget "/v" ["a.txt"]) = some [7] ∧
      countTarget (remoteTarget "/v" ["a.txt"])
        (runPass true "/v" [⟨["a.txt"], true, 1, [7], true, true, true⟩]
          [("/v/a.txt", [7])]).1
        = countTarget (remoteTarget "/v" ["a.txt"]) [("/v/a.txt", [7])] + 1 := by
  exact c8_unconditional_overwrite "/v"
    [⟨["a.txt"], true, 1, [7], true, true, true⟩]
    ⟨["a.txt"], true, 1, [7], true, true, true⟩
    (by decide) rfl (by decide) (by decide) (by decide) [("/v/a.txt", [7])]

theorem writesTo_false_of_no_small (vol p : String) (g : FsEntry)
    (h : g.isFile = true → remoteTarget vol g.relPath = p → sizeLimit ≤ g.size) :
    writesTo vol p g = false := by
  by_cases h1 : g.isFile = true
  · by_cases h2 : remoteTarget vol g.relPath = p
    · have h3 := h h1 h2
      have h4 : ¬(g.size < sizeLimit) := by omega
      simp [writesTo, h4]
    · simp [writesTo, h2]
  · have h1' : g.isFile = false := by
      cases hf : g.isFile
      · rfl
      · exact absurd hf h1
    simp [writesTo, h1']

/-- C2: a local file of size `≥ 10 * 1024 * 1024` bytes is never uploaded by
the background loop — over any number of iterations the upload count of its
remote target never moves (provided, as on a real filesystem, no *other*
sub-threshold file maps to the same target); the comparison is strict, and
an at-threshold file is skipped silently: its pass completes normally with
the store untouched. -/
theorem c2_size_exclusion (vol p : String) (running : Nat → Bool)
    (inputs : Nat → List FsEntry) (fuel i : Nat) (s : RemoteStore)
    (hbig : ∀ j, ∀ g ∈ inputs j, g.isFile = true →
      remoteTarget vol g.relPath = p → sizeLimit ≤ g.size) :
    countTarget p (sync_loop true vol running inputs fuel i s).1 = countTarget p s ∧
      ∀ g : FsEntry, g.isFile = true → g.statOk = true → sizeLimit ≤ g.size →
        runFiles vol [g] s = (s, true) := by
  constructor
  · induction fuel generalizing i s with
    | zero => rfl
    | succ fuel ih =>
      by_cases hri : running i
      · have hpass : countTarget p (loopIter true vol (inputs i) s).1
            = countTarget p s := by
          rw [loopIter_fst]
          simp only [runPass, if_true]
          exact runFiles_count_invariant vol p (inputs i) s
            (fun g hg => writesTo_false_of_no_small vol p g (hbig i g hg))
        simp only [sync_loop, hri, if_true]
        rw [ih (i + 1) (loopIter true vol (inputs i) s).1, hpass]
      · simp [sync_loop, hri]
  · intro g h1 h2 h3
    have h4 : ¬(g.size < sizeLimit) := by omega
    simp [runFiles, passStep, h1, h2, h4]

theorem c2_witness :
    countTarget "/v/big.bin"
        (sync_loop true "/v" (fun _ => true)
          (fun _ => [⟨["big.bin"], true, 10 * 1024 * 1024, [9], true, true, true⟩])
          3 0 [("/v/old", [0])]).1
      = countTarget "/v/big.bin" [("/v/old", [0])] ∧
    runFiles "/v" [⟨["big.bin"], true, 10 * 1024 * 1024, [9], true, true, true⟩]
        [("/v/old", [0])]
      = ([("/v/old", [0])], true) := by
  have h := c2_size_exclusion "/v" "/v/big.bin" (fun _ => true)
    (fun _ => [⟨["big.bin"], true, 10 * 1024 * 1024, [9], true, true, true⟩])
    3 0 [("/v/old", [0])]
    (by
      intro j
      show ∀ g ∈ [(⟨["big.bin"], true, 10 * 1024 * 1024, [9], true, true, true⟩ :
          FsEntry)],
        g.isFile = true → remoteTarget "/v" g.relPath = "/v/big.bin" →
          sizeLimit ≤ g.size
      decide)
  exact ⟨h.1, h.2 ⟨["big.bin"], true, 10 * 1024 * 1024, [9], true, true, true⟩
    rfl rfl (by decide)⟩

/-- C10: within one pass, a raise inside `_upload_file` (failing read or
failing upload) is caught there, so the pass proceeds exactly as if that
entry were absent; but a raise from `stat()` escapes, aborting the walk at
that entry: the store keeps only what was uploaded before it, the remaining
entries are not processed, and the pass reports failure (so they wait for
the next pass). -/
theorem c10_upload_vs_walk_failure (vol : String) (f : FsEntry)
    (ys : List FsEntry) (s : RemoteStore) :
    (f.isFile = true → f.statOk = true →
      ¬(f.readOk = true ∧ f.uploadOk = true) →
      runFiles vol (f :: ys) s = runFiles vol ys s) ∧
      (f.isFile = true → f.statOk = false →
        runFiles vol (f :: ys) s = (s, false)) := by
  constructor
  · intro h1 h2 h3
    have h4 : (f.readOk && f.uploadOk) = false := by
      cases hr : f.readOk <;> cases hu : f.uploadOk <;> simp_all
    by_cases h5 : f.size < sizeLimit
    · simp [runFiles, passStep, h1, h2, h5, upload_file, h4]
    · simp [runFiles, passStep, h1, h2, h5]
  · intro h1 h2
    simp [runFiles, passStep, h1, h2]

theorem c10_witness :
    runFiles "/v" [⟨["x"], true, 3, [7], true, true, false⟩,
        ⟨["y"], true, 2, [8], true, true, true⟩] []
      = runFiles "/v" [⟨["y"], true, 2, [8], true, true, true⟩] [] ∧
    runFiles "/v" [⟨["gone"], true, 3, [7], false, true, true⟩,
        ⟨["y"], true, 2, [8], true, true, true⟩] [] = ([], false) := by
  exact ⟨(c10_upload_vs_walk_failure "/v" ⟨["x"], true, 3, [7], true, true, false⟩
      [⟨["y"], true, 2, [8], true, true, true⟩] []).1 rfl rfl (by decide),
    (c10_upload_vs_walk_failure "/v" ⟨["gone"], true, 3, [7], false, true, true⟩
      [⟨["y"], true, 2, [8], true, true, true⟩] []).2 rfl rfl⟩

/-- C6: the loop body is total — an exception escaping per-file handling is
caught at the loop level: the iteration then sleeps 10 seconds instead of 5
(and exactly then), and the number of iterations executed is a function of
the running flag and the window alone, independent of the listings and of
any failures — only the flag stops the loop. -/
theorem c6_loop_resilience (sdk : Bool) (vol : String) (running : Nat → Bool)
    (inputs : Nat → List FsEntry) (fuel i : Nat) (s : RemoteStore) :
    (sync_loop sdk vol running inputs fuel i s).2.1 = passCount running fuel i ∧
      ∀ (files : List FsEntry) (s' : RemoteStore),
        (loopIter sdk vol files s').2 = 10 ↔ (runPass sdk vol files s').2 = false := by
  constructor
  · induction fuel generalizing i s with
    | zero => rfl
    | succ fuel ih =>
      by_cases hri : running i
      · simp only [sync_loop, passCount, hri, if_true]
        rw [ih (i + 1) (loopIter sdk vol (inputs i) s).1]
      · simp [sync_loop, passCount, hri]
  · intro files s'
    unfold loopIter
    rcases h : runPass sdk vol files s' with ⟨s'', b⟩
    cases b <;> simp

/-- C5: `stop()` clears the running flag and joins the thread with a
2-second timeout, returning regardless (it is a total function and
`joinTimeout = 2`); once the flag reads false at the top of an iteration
the loop performs no further pass; a `start()` after `stop()` sets the flag
again, and with the flag true the loop does perform passes. -/
theorem c5_stop_semantics (d : Daemon) (sdk : Bool) (vol : String)
    (running : Nat → Bool) (inputs : Nat → List FsEntry) (fuel i : Nat)
    (s : RemoteStore) :
    (stop d).running = false ∧
      joinTimeout = 2 ∧
      (running i = false → (sync_loop sdk vol running inputs fuel i s).2.1 = 0) ∧
      (start (stop d)).running = true ∧
      (running i = true → 0 < fuel →
        0 < (sync_loop sdk vol running inputs fuel i s).2.1) := by
  refine ⟨rfl, rfl, ?_, ?_, ?_⟩
  · intro h
    cases fuel with
    | zero => rfl
    | succ fuel => simp [sync_loop, h]
  · simp [start, stop]
  · intro h hfuel
    cases fuel with
    | zero => omega
    | succ fuel => simp [sync_loop, h]

theorem c5_witness :
    (stop ⟨["tmp"], "/v", true, some 0, 1⟩).running = false ∧
      joinTimeout = 2 ∧
      (sync_loop true "/v" (fun _ => false) (fun _ => []) 4 0 []).2.1 = 0 ∧
      (start (stop ⟨["tmp"], "/v", true, some 0, 1⟩)).running = true ∧
      0 < (sync_loop true "/v" (fun _ => true) (fun _ => []) 4 0 []).2.1 := by
  have h1 := c5_stop_semantics ⟨["tmp"], "/v", true, some 0, 1⟩ true "/v"
    (fun _ => false) (fun _ => []) 4 0 []
  have h2 := c5_stop_semantics ⟨["tmp"], "/v", true, some 0, 1⟩ true "/v"
    (fun _ => true) (fun _ => []) 4 0 []
  exact ⟨h1.1, h1.2.1, h1.2.2.1 rfl, h1.2.2.2.1, h2.2.2.2.2 rfl (by decide)⟩

/-- C7: `start()` on a running daemon is a no-op, so two consecutive calls
leave exactly one spawned loop thread; on a stopped daemon it sets the
running flag and spawns one new thread. -/
theorem c7_start_idempotent (d : Daemon) :
    start (start d) = start d ∧
      (d.running = true → start d = d) ∧
      (d.running = false →
        (start d).running = true ∧ (start d).spawned = d.spawned + 1 ∧
          (start (start d)).spawned = d.spawned + 1) := by
  by_cases h : d.running = true
  · refine ⟨?_, fun _ => ?_, fun hf => by rw [hf] at h; exact absurd h (by simp)⟩
    · simp [start, h]
    · simp [start, h]
  · have h' : d.running = false := by
      cases hr : d.running
      · rfl
      · exact absurd hr h
    refine ⟨?_, fun ht => absurd ht h, fun _ => ?_⟩
    · simp [start, h']
    · simp [start, h']

theorem c7_witness :
    start (start ⟨["tmp"], "/v", false, none, 0⟩)
        = start ⟨["tmp"], "/v", false, none, 0⟩ ∧
      (start ⟨["tmp"], "/v", false, none, 0⟩).running = true ∧
      (start ⟨["tmp"], "/v", false, none, 0⟩).spawned = 1 ∧
      (start (start ⟨["tmp"], "/v", false, none, 0⟩)).spawned = 1 := by
  have h := c7_start_idempotent ⟨["tmp"], "/v", false, none, 0⟩
  have h2 := h.2.2 rfl
  exact ⟨h.1, h2.1, h2.2.1, h2.2.2⟩

/-- C9: construction runs `mkdir(parents=True, exist_ok=True)` on the local
root: absent directories are created together with their ancestors, an
already-existing root succeeds without change, a hard filesystem fault
propagates out of the constructor, and a hard fault is the only
local-filesystem condition on which construction fails. -/
theorem c9_construction (p : List String) (vol : String) (fault : Bool)
    (dirs : DirSet) (hp : p ≠ []) :
    (fault = false → ∃ d dirs', init p vol fault dirs = .ok (d, dirs') ∧
      p ∈ dirs') ∧
      (fault = false → p ∈ dirs → ∃ d, init p vol fault dirs = .ok (d, dirs)) ∧
      (fault = true → init p vol fault dirs = .error .hardFault) ∧
      (∀ e, init p vol fault dirs = .error e → fault = true ∧ e = .hardFault) := by
  refine ⟨?_, ?_, ?_, ?_⟩
  · intro hf
    by_cases hmem : p ∈ dirs
    · exact ⟨⟨p, vol, false, none, 0⟩, dirs, by simp [init, mkdir, hf, hmem], hmem⟩
    · refine ⟨⟨p, vol, false, none, 0⟩, mkdirParents p dirs,
        by simp [init, mkdir, hf, hmem], ?_⟩
      have hlen : 0 < p.length := List.length_pos.mpr hp
      have : p.take (p.length - 1 + 1) = p := by
        have : p.length - 1 + 1 = p.length := by omega
        rw [this, List.take_length]
      refine List.mem_append.mpr (Or.inl ?_)
      exact List.mem_map.mpr ⟨p.length - 1, by simp [List.mem_range]; omega, this⟩
  · intro hf hmem
    exact ⟨⟨p, vol, false, none, 0⟩, by simp [init, mkdir, hf, hmem]⟩
  · intro hf
    simp [init, mkdir, hf]
  · intro e he
    cases fault with
    | true =>
      simp [init, mkdir] at he
      exact ⟨rfl, he.symm⟩
    | false =>
      exfalso
      by_cases hmem : p ∈ dirs <;> simp [init, mkdir, hmem] at he

theorem c9_witness :
    (∃ d dirs', init ["tmp", "sync"] "/v" false [] = .ok (d, dirs') ∧
      ["tmp", "sync"] ∈ dirs') ∧
      (∃ d, init ["tmp", "sync"] "/v" false [["tmp"], ["tmp", "sync"]]
        = .ok (d, [["tmp"], ["tmp", "sync"]])) ∧
      init ["tmp", "sync"] "/v" true [] = .error .hardFault := by
  have h1 := c9_construction ["tmp", "sync"] "/v" false [] (by decide)
  have h2 := c9_construction ["tmp", "sync"] "/v" false
    [["tmp"], ["tmp", "sync"]] (by decide)
  have h3 := c9_construction ["tmp", "sync"] "/v" true [] (by decide)
  exact ⟨h1.1 rfl, h2.2.1 rfl (by decide), h3.2.2.1 rfl⟩

/-! ## Lemmas about the initial pull -/

theorem sync_directory_nil (wo : List String → Bool) (d : List String)
    (fs : LFS) : sync_directory wo [] d fs = fs := by
  simp [sync_directory]

theorem sync_directory_cons (wo : List String → Bool) (e : REntry)
    (rest : List REntry) (d : List String) (fs : LFS) :
    sync_directory wo (e :: rest) d fs
      = sync_directory wo rest d (sync_entry wo e d fs) := by
  cases e with
  | file name c => simp [sync_directory, sync_entry]
  | dir name l => cases l <;> simp [sync_directory, sync_entry]

theorem sync_directory_append (wo : List String → Bool) (xs ys : List REntry)
    (d : List String) (fs : LFS) :
    sync_directory wo (xs ++ ys) d fs
      = sync_directory wo ys d (sync_directory wo xs d fs) := by
  induction xs generalizing fs with
  | nil => simp [sync_directory_nil]
  | cons e rest ih =>
    rw [List.cons_append, sync_directory_cons, sync_directory_cons, ih]

/-- The walk's effect on written files is oblivious to which directories
already exist: `mkdir` calls touch only `dirs`. -/
theorem sync_directory_files_congr (wo : List String → Bool) :
    ∀ (n : Nat) (es : List REntry), sizeOf es ≤ n →
      ∀ (d : List String) (fs fs' : LFS), fs.files = fs'.files →
        (sync_directory wo es d fs).files = (sync_directory wo es d fs').files := by
  intro n
  induction n with
  | zero =>
    intro es h
    cases es with
    | nil => intro d fs fs' hf; simp [sync_directory_nil, hf]
    | cons e rest =>
      exfalso
      simp only [List.cons.sizeOf_spec] at h
      omega
  | succ n ih =>
    intro es h d fs fs' hf
    cases es with
    | nil => simp [sync_directory_nil, hf]
    | cons e rest =>
      rw [sync_directory_cons, sync_directory_cons]
      have hrest : sizeOf rest ≤ n := by
        simp only [List.cons.sizeOf_spec] at h
        have : 0 < sizeOf e := by
          cases e <;> simp
        omega
      apply ih rest hrest
      cases e with
      | file name c =>
        cases c with
        | none => simpa [sync_entry, download_file] using hf
        | some b =>
          simp only [sync_entry, download_file, mkdirLocal]
          by_cases hw : wo (d ++ [name]) = true
          · simp [hw, hf]
          · have hw' : wo (d ++ [name]) = false := by
              cases hb : wo (d ++ [name])
              · rfl
              · exact absurd hb hw
            simp [hw', hf]
      | dir name l =>
        cases l with
        | none => simpa [sync_entry, mkdirLocal] using hf
        | some sub =>
          have hsub : sizeOf sub ≤ n := by
            simp only [List.cons.sizeOf_spec, REntry.dir.sizeOf_spec,
              Option.some.sizeOf_spec] at h
            omega
          simp only [sync_entry]
          exact ih sub hsub (d ++ [name]) _ _ (by simpa [mkdirLocal] using hf)

/-- C4: during the initial pull, a failing entry — a file whose download
raises, a subdirectory whose listing raises, or a file whose local write
raises — leaves the set of files written by the walk exactly what it would
be with that entry absent: earlier and later siblings and unrelated
subtrees are processed unchanged, and a listing failure costs only that
subdirectory's subtree. -/
theorem c4_failure_isolation (writeOk : List String → Bool)
    (xs ys : List REntry) (d : List String) (fs : LFS) :
    (∀ name,
      (sync_directory writeOk (xs ++ REntry.file name none :: ys) d fs).files
        = (sync_directory writeOk (xs ++ ys) d fs).files) ∧
      (∀ name,
        (sync_directory writeOk (xs ++ REntry.dir name none :: ys) d fs).files
          = (sync_directory writeOk (xs ++ ys) d fs).files) ∧
      (∀ name c, writeOk (d ++ [name]) = false →
        (sync_directory writeOk (xs ++ REntry.file name (some c) :: ys) d fs).files
          = (sync_directory writeOk (xs ++ ys) d fs).files) := by
  have key : ∀ e : REntry,
      (sync_entry writeOk e d (sync_directory writeOk xs d fs)).files
        = (sync_directory writeOk xs d fs).files →
      (sync_directory writeOk (xs ++ e :: ys) d fs).files
        = (sync_directory writeOk (xs ++ ys) d fs).files := by
    intro e he
    rw [sync_directory_append, sync_directory_append, sync_directory_cons]
    exact sync_directory_files_congr writeOk (sizeOf ys) ys le_rfl d _ _ he
  refine ⟨fun name => key _ rfl, fun name => key _ rfl, fun name c h => key _ ?_⟩
  simp [sync_entry, download_file, mkdirLocal, h]

theorem c4_witness :
    (sync_directory (fun p => decide (p ≠ ["w"]))
        ([REntry.dir "a" (some [REntry.file "ok.txt" (some [1])])]
          ++ REntry.dir "b" none :: [REntry.file "c.txt" (some [3])]) [] ⟨[], []⟩).files
      = (sync_directory (fun p => decide (p ≠ ["w"]))
          ([REntry.dir "a" (some [REntry.file "ok.txt" (some [1])])]
            ++ [REntry.file "c.txt" (some [3])]) [] ⟨[], []⟩).files ∧
    (sync_directory (fun p => decide (p ≠ ["w"]))
        ([REntry.dir "a" (some [REntry.file "ok.txt" (some [1])])]
          ++ REntry.file "w" (some [2]) :: [REntry.file "c.txt" (some [3])]) [] ⟨[], []⟩).files
      = (sync_directory (fun p => decide (p ≠ ["w"]))
          ([REntry.dir "a" (some [REntry.file "ok.txt" (some [1])])]
            ++ [REntry.file "c.txt" (some [3])]) [] ⟨[], []⟩).files ∧
    lookupFile (sync_directory (fun p => decide (p ≠ ["w"]))
        ([REntry.dir "a" (some [REntry.file "ok.txt" (some [1])])]
          ++ REntry.dir "b" none :: [REntry.file "c.txt" (some [3])]) [] ⟨[], []⟩)
      ["a", "ok.txt"] = some [1] := by
  have h := c4_failure_isolation (fun p => decide (p ≠ ["w"]))
    [REntry.dir "a" (some [REntry.file "ok.txt" (some [1])])]
    [REntry.file "c.txt" (some [3])] [] ⟨[], []⟩
  refine ⟨h.2.1 "b", h.2.2 "w" [2] (by decide), ?_⟩
  simp only [List.cons_append, List.nil_append, sync_directory_cons,
    sync_directory_nil, sync_entry]
  decide

/-- C3 (counterexample to the claim as stated): with the remote root listing
able to deliver `ok.txt`, a failing `create_directory` step makes the pull
download nothing — the recursive walk does *not* proceed (it would have
written `ok.txt`, as the second conjunct shows). -/
theorem c3_counterexample :
    lookupFile (sync_from_volume true false (fun _ => true)
        (some [REntry.file "ok.txt" (some [1])]) ⟨[], []⟩) ["ok.txt"] = none ∧
      lookupFile (sync_directory (fun _ => true)
        [REntry.file "ok.txt" (some [1])] [] ⟨[], []⟩) ["ok.txt"] = some [1] := by
  constructor
  · rfl
  · simp only [sync_directory_cons, sync_directory_nil, sync_entry]
    decide

/-- C3 (amended): a failure of the ensure-remote-root-directory step is
caught by `sync_from_volume`'s own handler — it does not propagate to the
caller — but it aborts the pull: the recursive listing and download are
skipped entirely for that invocation, and they run only when the step
succeeds. -/
theorem c3_amended (writeOk : List String → Bool)
    (rootListing : Option (List REntry)) (fs : LFS) :
    sync_from_volume true false writeOk rootListing fs = fs ∧
      sync_from_volume true true writeOk rootListing fs
        = sync_directory_l writeOk rootListing [] fs := ⟨rfl, rfl⟩

end SimpleVolumeSyncDaemon
